import Mathlib

/-!
Shallow embedding of the AUC-Research-Assistant retrieval pipeline
(the `backend/app` tree): the search schemas, the federated search
aggregation, the embedding store, the Cohere reranker, the connector
timeout wrapper, and the two streaming endpoints, together with theorems
about the claims on them.

Hashing note: the source uses `hashlib.md5(...).hexdigest()` only to build
deduplication keys.  The embedding models each such hash as an injective
function by carrying the hashed pre-image itself (tagged by the branch that
produced it), i.e. it assumes md5 is collision-free on the inputs involved.

Python string primitives are re-implemented over `String.data` character
lists so that all definitions reduce inside the kernel.
-/

/-! ## Python string primitives -/

/-- Python `str.lower()` (the pipeline only lowers ASCII titles/DOIs). -/
def lowerString (s : String) : String :=
  String.mk (s.data.map Char.toLower)

/-- Worker for `str.split()` with no separator: split on whitespace runs,
dropping empty pieces.  `acc` is the current word, reversed. -/
def splitWsGo (acc : List Char) : List Char → List (List Char)
  | [] => if acc = [] then [] else [acc.reverse]
  | c :: cs =>
    if c.isWhitespace then
      if acc = [] then splitWsGo [] cs else acc.reverse :: splitWsGo [] cs
    else splitWsGo (c :: acc) cs

/-- Python `str.split()` with no argument. -/
def pySplitWs (s : String) : List String :=
  (splitWsGo [] s.data).map String.mk

/-- Python `str.strip()` on characters. -/
def trimChars (l : List Char) : List Char :=
  ((l.dropWhile Char.isWhitespace).reverse.dropWhile Char.isWhitespace).reverse

/-- Python `str.strip()`. -/
def pyStrip (s : String) : String :=
  String.mk (trimChars s.data)

/-- Lexicographic (code point) comparison of character lists, matching
Python string `<`. -/
def charListLt : List Char → List Char → Bool
  | [], [] => false
  | [], _ :: _ => true
  | _ :: _, [] => false
  | a :: as, b :: bs => if a < b then true else if b < a then false else charListLt as bs

/-- Python string `<`. -/
def strLtB (a b : String) : Bool :=
  charListLt a.data b.data

/-- Stable ascending insertion used to model Python `sorted` on strings. -/
def pyInsertAsc (x : String) : List String → List String
  | [] => [x]
  | y :: ys => if strLtB x y then x :: y :: ys else y :: pyInsertAsc x ys

/-- Python `sorted` on a list of strings (ascending, stable). -/
def pySortedStr (l : List String) : List String :=
  l.foldr pyInsertAsc []

/-- Stable descending insertion by a rational key: one step of Python
`list.sort(key=..., reverse=True)`. -/
def pyInsertDesc {α : Type} (key : α → ℚ) (x : α) : List α → List α
  | [] => [x]
  | y :: ys => if key x < key y then y :: pyInsertDesc key x ys else x :: y :: ys

/-- Python `list.sort(key=..., reverse=True)`: stable, descending by key. -/
def pySortDesc {α : Type} (key : α → ℚ) (l : List α) : List α :=
  l.foldr (pyInsertDesc key) []

/-- Python `str.startswith`. -/
def pyStartsWith (s pre : String) : Bool :=
  List.isPrefixOf pre.data s.data

/-- Fuelled worker for Python `str.replace` (all non-overlapping
occurrences, left to right); the fuel is an upper bound on the scanned
length, so with fuel above the input length and a non-empty pattern this
is exactly `str.replace`. -/
def replaceFuel (pat rep : List Char) : Nat → List Char → List Char
  | 0, l => l
  | _ + 1, [] => []
  | fuel + 1, c :: cs =>
    if List.isPrefixOf pat (c :: cs) then
      rep ++ replaceFuel pat rep fuel ((c :: cs).drop pat.length)
    else c :: replaceFuel pat rep fuel cs

/-- Python `str.replace` for a non-empty pattern. -/
def pyReplace (s pat rep : String) : String :=
  String.mk (replaceFuel pat.data rep.data (s.data.length + 1) s.data)

/-- Worker for Python `str.split(sep)` with a one-character separator
(keeps empty pieces). -/
def splitOnCharGo (sep : Char) (acc : List Char) : List Char → List (List Char)
  | [] => [acc.reverse]
  | c :: cs =>
    if c = sep then acc.reverse :: splitOnCharGo sep [] cs
    else splitOnCharGo sep (c :: acc) cs

/-- Python `content.split("\n")`. -/
def pySplitNl (s : String) : List String :=
  (splitOnCharGo '\n' [] s.data).map String.mk

/-- Python truthiness of an `Optional[str]`: `None` and `""` are falsy. -/
def pyTruthyStr : Option String → Bool
  | none => false
  | some s => s ≠ ""

/-! ## Data model (backend/app/schemas/search.py) -/

/-- `AccessInfo.access_type` literal values. -/
inductive ATLiteral where
  | open_access | licensed | restricted | unknown
deriving DecidableEq, Repr

/-- `AccessInfo` (schemas/search.py lines 47-55), restricted to the two
fields the pipeline reads. -/
structure AccessInfo where
  is_open_access : Bool
  access_type : ATLiteral
deriving DecidableEq, Repr

/-- The binary `AccessType` literal ("open" | "restricted"). -/
inductive AccessType where
  | open | restricted
deriving DecidableEq, Repr

/-- A `datetime` value: a totally ordered timestamp together with its year
component (the pipeline only compares datetimes and reads `.year`). -/
structure PyDatetime where
  stamp : Int
  year : Int
deriving DecidableEq, Repr

/-- `Author` (schemas/search.py lines 39-44): only the name is read by the
pipeline under verification. -/
structure Author where
  name : String
deriving DecidableEq, Repr

/-- `SearchResult` (schemas/search.py lines 70-101), restricted to the
fields the verified pipeline reads.  `relevance_score` is a float in the
source; floats used only as ordered score values are modelled as
rationals. -/
structure SearchResult where
  id : String
  title : String
  authors : List Author
  abstract : Option String
  publication_date : Option PyDatetime
  doi : Option String
  url : Option String
  source_database : String
  access_info : AccessInfo
  access : AccessType
  relevance_score : ℚ
deriving DecidableEq, Repr

/-- `SearchStats` (schemas/search.py lines 128-136); the per-database dict
is kept as an association list in insertion order. -/
structure SearchStats where
  total_results : Nat
  results_per_database : List (String × Nat)
  search_time_ms : Int
  query_expansion_used : Bool
  semantic_search_used : Bool
  duplicates_removed : Nat
deriving DecidableEq, Repr

/-- `FederatedSearchResponse` (schemas/search.py lines 139-150). -/
structure FederatedSearchResponse where
  query : String
  results : List SearchResult
  stats : SearchStats
  suggestions : List String
  related_queries : List String
deriving DecidableEq, Repr

/-! ## SearchResult access derivation (schemas/search.py lines 105-125)

Pydantic applies field defaults before `mode="after"` validators run, so
when the caller omits `access` the validator observes the declared field
default `"restricted"` (line 85). -/

/-- Body of the `_derive_access_from_access_info` validator (lines
106-125); `access` holds the already-validated field value when the
validator runs. -/
def deriveAccessFromAccessInfo (access : AccessType) (ai : AccessInfo) : AccessType :=
  -- line 108: if getattr(self, "access", None) in ("open", "restricted"): return self
  if access = AccessType.open ∨ access = AccessType.restricted then access
  else if ai.is_open_access = true ∨ ai.access_type = ATLiteral.open_access then AccessType.open
  else AccessType.restricted

/-- The `access` field of a freshly validated `SearchResult`: pydantic
fills the declared default `"restricted"` when the caller does not pass
`access`, then runs the after-validator. -/
def mkSearchResultAccess (explicit : Option AccessType) (ai : AccessInfo) : AccessType :=
  deriveAccessFromAccessInfo (explicit.getD AccessType.restricted) ai

/-! ## Duplicate signature and merge
(federated_search_service.py lines 209-253) -/

/-- A dedup signature.  The source prefixes a tag (`doi:`, `title:`,
`full_title:`) and md5-hashes the two title branches; each hash is
modelled by its pre-image (see the hashing note at the top). -/
inductive Signature where
  | doi (lowered : String)
  | titleHash (joinedSortedWords : String)
  | fullTitleHash (loweredTitle : String)
deriving DecidableEq, Repr

/-- The stop words of `_create_result_signature` (line 244). -/
def stopWords : List String :=
  ["a", "an", "the", "and", "or", "but", "in", "on", "at", "to", "for", "of", "with", "by"]

/-- The meaningful title words of line 245: words of the lower-cased,
whitespace-split title that are not stop words and have length > 2
(duplicates kept, order kept). -/
def meaningfulWords (title : String) : List String :=
  (pySplitWs (lowerString title)).filter (fun w => w ∉ stopWords ∧ w.length > 2)

/-- `_create_result_signature` (lines 235-253). -/
def createResultSignature (result : SearchResult) : Signature :=
  if pyTruthyStr result.doi then
    Signature.doi (lowerString (result.doi.getD ""))
  else
    let meaningful := meaningfulWords result.title
    if meaningful ≠ [] then
      Signature.titleHash (String.intercalate " " (pySortedStr meaningful))
    else
      Signature.fullTitleHash (lowerString result.title)

/-- The loop of `_remove_duplicates` (lines 219-231): threads the set of
seen signatures and the removed-duplicate count. -/
def removeDupGo : List SearchResult → List Signature → Nat → List SearchResult × Nat
  | [], _, dups => ([], dups)
  | r :: rest, seen, dups =>
    if createResultSignature r ∈ seen then removeDupGo rest seen (dups + 1)
    else
      (r :: (removeDupGo rest (createResultSignature r :: seen) dups).1,
       (removeDupGo rest (createResultSignature r :: seen) dups).2)

/-- `_remove_duplicates` (lines 209-233). -/
def removeDuplicates (results : List SearchResult) : List SearchResult × Nat :=
  if results = [] then ([], 0) else removeDupGo results [] 0

/-- The title signature as the SPEC words it: the sorted *set* of
meaningful title words, so duplicated words collapse.  Declared only to
compare the spec's claim with the source's signature, which sorts the word
list without collapsing duplicates. -/
def specMeaningfulWordSet (title : String) : List String :=
  pySortedStr (meaningfulWords title).dedup

/-! ## Reranker (cohere_reranker.py lines 38-109) -/

/-- Re-materialization loop of lines 95-101: looks up
`documents[result.index]` for each returned index and attaches the new
relevance score; one out-of-range index raises `IndexError` inside the
`try`, discarding all partial output (modelled by `none`). -/
def remapAll {α : Type} (docs : List α) (results : List (Nat × ℚ))
    (setScore : α → ℚ → α) : Option (List α) :=
  results.mapM (fun p => (docs.get? p.1).map (fun d => setScore d p.2))

/-- `rerank_documents` (lines 43-109).  `available` is `is_available()`
(the Cohere client was constructed); `call` is the outcome of the external
`client.rerank` request (`top_n` is only forwarded to that request, so it
is absorbed into `call`); `setScore` models writing the returned relevance
score onto a document. -/
def rerankDocuments {α : Type} (available : Bool) (docs : List α)
    (call : Except Unit (List (Nat × ℚ))) (setScore : α → ℚ → α) : List α :=
  if available = false then docs
  else if docs.isEmpty then docs
  else
    match call with
    | Except.error _ => docs
    | Except.ok results =>
      match remapAll docs results setScore with
      | some out => out
      | none => docs

/-! ## Connector timeout wrapper (database_connectors/base.py lines 241-262) -/

/-- Outcome of the wrapped `await self.search(query)` call. -/
inductive SearchOutcome where
  | ok (results : List SearchResult)
  | timeout
  | raised (msg : String)
deriving DecidableEq, Repr

/-- `search_with_timeout` (lines 241-262): the underlying results, or an
empty list on `asyncio.TimeoutError` or any other exception. -/
def searchWithTimeout (outcome : SearchOutcome) : List SearchResult :=
  match outcome with
  | SearchOutcome.ok results => results
  | SearchOutcome.timeout => []
  | SearchOutcome.raised _ => []

/-! ## Helper lemmas for the dedup merge -/

theorem removeDupGo_spec (rs : List SearchResult) :
    ∀ seen dups,
      ((removeDupGo rs seen dups).1.Pairwise
        (fun a b => createResultSignature a ≠ createResultSignature b)) ∧
      (∀ r ∈ (removeDupGo rs seen dups).1, createResultSignature r ∉ seen) ∧
      (removeDupGo rs seen dups).1.Sublist rs ∧
      (removeDupGo rs seen dups).1.length + (removeDupGo rs seen dups).2
        = rs.length + dups := by
  induction rs with
  | nil =>
    intro seen dups
    simp [removeDupGo]
  | cons r rest ih =>
    intro seen dups
    by_cases h : createResultSignature r ∈ seen
    · have H := ih seen (dups + 1)
      have e : removeDupGo (r :: rest) seen dups = removeDupGo rest seen (dups + 1) := by
        simp [removeDupGo, h]
      rw [e]
      refine ⟨H.1, H.2.1, H.2.2.1.cons r, ?_⟩
      have := H.2.2.2
      simp only [List.length_cons]
      omega
    · have H := ih (createResultSignature r :: seen) dups
      have e : removeDupGo (r :: rest) seen dups
          = (r :: (removeDupGo rest (createResultSignature r :: seen) dups).1,
             (removeDupGo rest (createResultSignature r :: seen) dups).2) := by
        simp [removeDupGo, h]
      rw [e]
      refine ⟨?_, ?_, ?_, ?_⟩
      · refine List.Pairwise.cons ?_ H.1
        intro b hb hEq
        exact H.2.1 b hb (by rw [← hEq]; exact List.mem_cons_self _ _)
      · intro x hx
        rcases List.mem_cons.mp hx with rfl | hx2
        · exact h
        · exact fun hc => H.2.1 x hx2 (List.mem_cons_of_mem _ hc)
      · exact H.2.2.1.cons₂ r
      · have := H.2.2.2
        simp only [List.length_cons]
        omega

/-! ## Concrete records used by counterexamples and witnesses -/

/-- AccessInfo of a record with no open-access signal. -/
def aiUnknown : AccessInfo :=
  { is_open_access := false, access_type := ATLiteral.unknown }

/-- A minimal `SearchResult` as a connector normalizer would produce it
(no explicit `access`, so pydantic's default `"restricted"` applies). -/
def mkRes (rid title : String) (doi : Option String) : SearchResult :=
  { id := rid, title := title, authors := [], abstract := none,
    publication_date := none, doi := doi, url := none,
    source_database := "arxiv", access_info := aiUnknown,
    access := AccessType.restricted, relevance_score := 0 }

/-- Title with a repeated meaningful word. -/
def resCatCat : SearchResult := mkRes "1" "cat cat dog" none

/-- Title with the same meaningful word set, no repetition. -/
def resCat : SearchResult := mkRes "2" "cat dog" none

/-- A record carrying a present-but-empty DOI string. -/
def resEmptyDoi : SearchResult := mkRes "3" "cat dog" (some "")

/-- C1: the Aggregator's duplicate signature is computed in priority order
(DOI, meaningful-word title hash, full-title hash) and the merge keeps the
first occurrence of each signature — but the title branch hashes the
sorted *list* of meaningful words with duplicates kept, not the sorted
*set* the claim describes: two titles with equal meaningful-word sets but
different word multiplicities get distinct signatures and are both kept,
and a present-but-empty DOI string is skipped rather than used. -/
theorem C1_counterexample :
    resCatCat.doi = none ∧ resCat.doi = none ∧
    specMeaningfulWordSet resCatCat.title = specMeaningfulWordSet resCat.title ∧
    specMeaningfulWordSet resCatCat.title ≠ [] ∧
    createResultSignature resCatCat ≠ createResultSignature resCat ∧
    (removeDuplicates [resCatCat, resCat]).1 = [resCatCat, resCat] ∧
    (removeDuplicates [resCatCat, resCat]).2 = 0 ∧
    resEmptyDoi.doi = some "" ∧
    createResultSignature resEmptyDoi = Signature.titleHash "cat dog" := by
  decide

/-- C1 (amended): with the signature as implemented — lower-cased DOI when
the DOI is non-empty, else the hash of the sorted list (duplicates kept)
of meaningful title words when non-empty, else the hash of the full
lower-cased title — the merge keeps the first occurrence of each
signature, drops and counts every later result with an already-seen
signature, and the merged output contains no two entries with equal
signatures. -/
theorem C1_dedup_signature (rs : List SearchResult) :
    ((removeDuplicates rs).1.Pairwise
      (fun a b => createResultSignature a ≠ createResultSignature b)) ∧
    (removeDuplicates rs).1.Sublist rs ∧
    (removeDuplicates rs).1.length + (removeDuplicates rs).2 = rs.length := by
  by_cases h : rs = []
  · subst h
    simp [removeDuplicates]
  · have H := removeDupGo_spec rs [] 0
    simp only [removeDuplicates, if_neg h]
    exact ⟨H.1, H.2.2.1, by have := H.2.2.2; omega⟩

/-- C3: `rerank_documents` is the identity whenever the reranker is
unavailable, or the document list is empty, or the external reranking call
raises; being a total function of the call outcome it never raises to the
caller (an out-of-range index from the provider is also caught and yields
the original list). -/
theorem C3_rerank_identity (α : Type) (available : Bool) (docs : List α)
    (call : Except Unit (List (Nat × ℚ))) (setScore : α → ℚ → α)
    (h : available = false ∨ docs = [] ∨ ∃ e, call = Except.error e) :
    rerankDocuments available docs call setScore = docs := by
  rcases h with h | h | ⟨e, h⟩
  · simp [rerankDocuments, h]
  · subst h
    simp [rerankDocuments]
  · subst h
    by_cases ha : available = false
    · simp [rerankDocuments, ha]
    · by_cases hd : docs.isEmpty
      · simp [rerankDocuments, hd]
      · simp [rerankDocuments, ha, hd]

/-- C3 witness: the unavailable reranker leaves a concrete list unchanged. -/
theorem C3_rerank_identity_witness :
    rerankDocuments false [(1 : Nat), 2] (Except.ok []) (fun d _ => d) = [1, 2] :=
  C3_rerank_identity Nat false [1, 2] (Except.ok []) (fun d _ => d) (Or.inl rfl)

/-- C4: `search_with_timeout` returns an empty list whenever the wrapped
search times out or raises; as a total function of the outcome it never
raises to the caller. -/
theorem C4_timeout_empty (outcome : SearchOutcome)
    (h : outcome = SearchOutcome.timeout ∨ ∃ msg, outcome = SearchOutcome.raised msg) :
    searchWithTimeout outcome = [] := by
  rcases h with h | ⟨msg, h⟩ <;> subst h <;> rfl

/-- C4 witness: the timeout outcome of a concrete call yields `[]`. -/
theorem C4_timeout_empty_witness :
    searchWithTimeout SearchOutcome.timeout = [] :=
  C4_timeout_empty SearchOutcome.timeout (Or.inl rfl)

/-- C9: the claim's derivation never happens.  Pydantic fills the declared
field default `"restricted"` before the after-validator runs, so the
guard on line 108 (`access in ("open", "restricted")`) is always true and
the derivation branch is dead: a result whose `AccessInfo` is fully open
(`is_open_access=True`, `access_type="open_access"`) but whose `access`
was not explicitly supplied still ends up `"restricted"`, contradicting
the claim and the source's own comment ("derive `access` automatically
from `access_info` if caller didn't set it"). -/
theorem C9_access_derivation_dead :
    mkSearchResultAccess none
      { is_open_access := true, access_type := ATLiteral.open_access }
      = AccessType.restricted ∧
    (∀ explicit ai, mkSearchResultAccess explicit ai = explicit.getD AccessType.restricted) := by
  constructor
  · rfl
  · intro explicit ai
    cases h : explicit.getD AccessType.restricted <;>
      simp [mkSearchResultAccess, deriveAccessFromAccessInfo, h]

/-! ## Document store (embedding_client.py lines 112-218) -/

/-- The year string stored in chunk metadata: `str(publication_date.year)`
or `"Unknown"`; kept as an inductive so the injective int-to-string
rendering needs no digit arithmetic. -/
inductive YearStr where
  | unknown
  | of (year : Int)
deriving DecidableEq, Repr

/-- The metadata dict built per document (lines 151-165); the constant
`"type": "academic_paper"` entry is omitted. -/
structure ChunkMeta where
  title : String
  authors : String
  year : YearStr
  source : String
  url : String
  doc_hash : String
  access : AccessType
deriving DecidableEq, Repr

/-- A langchain `Document`: page content plus metadata. -/
structure Chunk where
  page_content : String
  metadata : ChunkMeta
deriving DecidableEq, Repr

/-- `_create_document_hash` (lines 112-115): md5 of `f"{title}_{abstract}"`
truncated to 12 hex chars, modelled by the pre-image (hashing note). -/
def createDocumentHash (title abstract : String) : String :=
  title ++ "_" ++ abstract

/-- The `title or "Unknown Title"` default of line 134. -/
def docTitle (d : SearchResult) : String :=
  if d.title = "" then "Unknown Title" else d.title

/-- The `abstract or ""` default of line 135. -/
def docAbstract (d : SearchResult) : String :=
  d.abstract.getD ""

/-- The metadata dict of lines 151-165. -/
def docMetadata (d : SearchResult) : ChunkMeta :=
  { title := docTitle d
    authors :=
      if d.authors = [] then "Unknown Authors"
      else String.intercalate ", " (d.authors.map Author.name)
    year := match d.publication_date with
      | some dt => YearStr.of dt.year
      | none => YearStr.unknown
    source := d.source_database
    url := d.url.getD ""
    doc_hash := createDocumentHash (docTitle d) (docAbstract d)
    access := if d.access_info.is_open_access then AccessType.open else AccessType.restricted }

/-- The combined page content of line 148. -/
def docContent (d : SearchResult) : String :=
  "Title: " ++ docTitle d ++ "\n\nAbstract: " ++ docAbstract d

/-- `settings.RAG_CHUNK_SIZE` (core/config.py line 68). -/
def RAG_CHUNK_SIZE : Nat := 1000

/-- Lines 172-181: one document's chunk list.  `split` models the external
`RecursiveCharacterTextSplitter.split_documents` content splitting; the
langchain splitter copies the parent document's metadata onto every
chunk, which the `map` makes explicit. -/
def docChunks (split : String → List String) (d : SearchResult) : List Chunk :=
  if (docContent d).length > RAG_CHUNK_SIZE then
    (split (docContent d)).map (fun c => { page_content := c, metadata := docMetadata d })
  else
    [{ page_content := docContent d, metadata := docMetadata d }]

/-- Lines 184-196: the set of non-empty `doc_hash` values already present
in the collection. -/
def existingHashes (store : List Chunk) : List String :=
  (store.map (fun c => c.metadata.doc_hash)).filter (fun h => h ≠ "")

/-- `process_and_store_documents` (lines 117-218) acting on the persisted
collection: chunks whose parent document hash is already present are
dropped, the rest are appended. -/
def processAndStoreDocuments (split : String → List String) (store : List Chunk)
    (documents : List SearchResult) : List Chunk :=
  if documents = [] then store
  else
    let splitDocs := (documents.map (docChunks split)).flatten
    store ++ splitDocs.filter (fun c => c.metadata.doc_hash ∉ existingHashes store)

theorem mem_docChunks_metadata (split : String → List String) (d : SearchResult) :
    ∀ c ∈ docChunks split d, c.metadata = docMetadata d := by
  intro c hc
  by_cases h : (docContent d).length > RAG_CHUNK_SIZE
  · simp only [docChunks, if_pos h, List.mem_map] at hc
    rcases hc with ⟨s, _, rfl⟩
    rfl
  · simp only [docChunks, if_neg h, List.mem_singleton] at hc
    subst hc
    rfl

theorem docHash_ne_empty (d : SearchResult) :
    (docMetadata d).doc_hash ≠ "" := by
  intro h
  have hEq : (docTitle d ++ "_" ++ docAbstract d).length = ("" : String).length := by
    rw [← h]
    rfl
  rw [String.length_append, String.length_append] at hEq
  have h1 : ("_" : String).length = 1 := rfl
  have h0 : ("" : String).length = 0 := rfl
  omega

theorem mem_existingHashes (store : List Chunk) (h : String) :
    h ∈ existingHashes store ↔ (h ≠ "" ∧ ∃ c ∈ store, c.metadata.doc_hash = h) := by
  simp only [existingHashes, List.mem_filter, List.mem_map, decide_eq_true_eq]
  constructor
  · rintro ⟨⟨c, hc, rfl⟩, hne⟩
    exact ⟨hne, c, hc, rfl⟩
  · rintro ⟨hne, c, hc, rfl⟩
    exact ⟨⟨c, hc, rfl⟩, hne⟩

/-- C2: storing the same document twice (identical title and abstract)
across two calls adds its chunks at most once: the second
`process_and_store_documents` call finds the document's hash among the
stored metadata and drops every chunk, leaving the collection unchanged,
for any prior store contents and any splitter behaviour. -/
theorem C2_store_idempotent (split : String → List String) (store : List Chunk)
    (d : SearchResult) :
    processAndStoreDocuments split (processAndStoreDocuments split store [d]) [d]
      = processAndStoreDocuments split store [d] := by
  have hne : ([d] : List SearchResult) ≠ [] := by simp
  have hmeta := mem_docChunks_metadata split d
  have hsplit : (([d].map (docChunks split)).flatten) = docChunks split d := by
    simp
  by_cases hIn : (docMetadata d).doc_hash ∈ existingHashes store
  · -- every chunk is dropped already by the first call
    have hfilter :
        (docChunks split d).filter
          (fun c => c.metadata.doc_hash ∉ existingHashes store) = [] := by
      apply List.filter_eq_nil_iff.mpr
      intro c hc
      simp only [decide_eq_true_eq, Decidable.not_not]
      rw [hmeta c hc]
      exact hIn
    have h1 : processAndStoreDocuments split store [d] = store := by
      simp only [processAndStoreDocuments, if_neg hne, hsplit, hfilter, List.append_nil]
    rw [h1]
    exact h1
  · -- all chunks pass the first filter
    have hfilter :
        (docChunks split d).filter
          (fun c => c.metadata.doc_hash ∉ existingHashes store) = docChunks split d := by
      apply List.filter_eq_self.mpr
      intro c hc
      simp only [decide_eq_true_eq]
      rw [hmeta c hc]
      exact hIn
    have h1 : processAndStoreDocuments split store [d]
        = store ++ docChunks split d := by
      simp only [processAndStoreDocuments, if_neg hne, hsplit, hfilter]
    rw [h1]
    by_cases hch : docChunks split d = []
    · simp only [processAndStoreDocuments, if_neg hne, hsplit, hch, List.filter_nil,
        List.append_nil]
    · -- the first call stored a chunk carrying the document's hash
      obtain ⟨c0, hc0⟩ := List.exists_mem_of_ne_nil _ hch
      have hmem : (docMetadata d).doc_hash ∈ existingHashes (store ++ docChunks split d) := by
        rw [mem_existingHashes]
        refine ⟨docHash_ne_empty d, c0, List.mem_append_right _ hc0, ?_⟩
        rw [hmeta c0 hc0]
      have hfilter2 :
          (docChunks split d).filter
            (fun c => c.metadata.doc_hash ∉ existingHashes (store ++ docChunks split d))
            = [] := by
        apply List.filter_eq_nil_iff.mpr
        intro c hc
        simp only [decide_eq_true_eq, Decidable.not_not]
        rw [hmeta c hc]
        exact hmem
      simp only [processAndStoreDocuments, if_neg hne, hsplit, hfilter2, List.append_nil]

/-! ## Sortedness of the Python descending sort -/

theorem mem_pyInsertDesc {α : Type} (key : α → ℚ) (x a : α) :
    ∀ l, a ∈ pyInsertDesc key x l → a = x ∨ a ∈ l := by
  intro l
  induction l with
  | nil =>
    intro h
    simp [pyInsertDesc] at h
    exact Or.inl h
  | cons y ys ih =>
    intro h
    by_cases hk : key x < key y
    · simp only [pyInsertDesc, if_pos hk, List.mem_cons] at h
      rcases h with rfl | h
      · exact Or.inr (List.mem_cons_self _ _)
      · rcases ih h with h | h
        · exact Or.inl h
        · exact Or.inr (List.mem_cons_of_mem _ h)
    · simp only [pyInsertDesc, if_neg hk, List.mem_cons] at h
      rcases h with rfl | h
      · exact Or.inl rfl
      · exact Or.inr (List.mem_cons.mpr h)

theorem pairwise_pyInsertDesc {α : Type} (key : α → ℚ) (x : α) :
    ∀ l, l.Pairwise (fun a b => key b ≤ key a) →
      (pyInsertDesc key x l).Pairwise (fun a b => key b ≤ key a) := by
  intro l
  induction l with
  | nil =>
    intro _
    simp [pyInsertDesc]
  | cons y ys ih =>
    intro h
    by_cases hk : key x < key y
    · simp only [pyInsertDesc, if_pos hk]
      refine List.Pairwise.cons ?_ (ih (List.Pairwise.of_cons h))
      intro b hb
      rcases mem_pyInsertDesc key x b ys hb with rfl | hb
      · exact le_of_lt hk
      · exact (List.pairwise_cons.mp h).1 b hb
    · simp only [pyInsertDesc, if_neg hk]
      refine List.Pairwise.cons ?_ h
      intro b hb
      rcases List.mem_cons.mp hb with rfl | hb
      · exact le_of_not_lt hk
      · exact le_trans ((List.pairwise_cons.mp h).1 b hb) (le_of_not_lt hk)

theorem pairwise_pySortDesc {α : Type} (key : α → ℚ) (l : List α) :
    (pySortDesc key l).Pairwise (fun a b => key b ≤ key a) := by
  induction l with
  | nil => simp [pySortDesc]
  | cons x xs ih => exact pairwise_pyInsertDesc key x _ ih

theorem mem_pySortDesc {α : Type} (key : α → ℚ) (a : α) :
    ∀ l, a ∈ pySortDesc key l → a ∈ l := by
  intro l
  induction l with
  | nil =>
    intro h
    simp [pySortDesc] at h
  | cons x xs ih =>
    intro h
    rcases mem_pyInsertDesc key x a _ h with rfl | h
    · exact List.mem_cons_self _ _
    · exact List.mem_cons_of_mem _ (ih h)

/-! ## Federated aggregator (federated_search_service.py lines 39-160) -/

/-- Environment of one `FederatedSearchService.search` call.  Each
provider task (`_search_database_with_expansion` gathered with
`return_exceptions=True`, lines 73-94) yields a result list or an
exception; `scoreUpd` models the per-result score mutation of
`_calculate_relevance_scores` (applied only on the semantic path);
`suggestions`/`relatedQueries` model the external LLM outputs;
`mergeException` models an unexpected exception anywhere inside the
`try` body, which line 144 catches. -/
structure AggregatorEnv where
  queryText : String
  enableSemantic : Bool
  providerOutcomes : List (String × Except String (List SearchResult))
  scoreUpd : SearchResult → SearchResult
  suggestions : List String
  relatedQueries : List String
  searchTimeMs : Int
  mergeException : Option String

/-- The consolidation loop of lines 79-94, in gather order: total result
list, per-database counts, successful and failed database names. -/
def consolidate :
    List (String × Except String (List SearchResult)) →
      List SearchResult × List (String × Nat) × List String × List String
  | [] => ([], [], [], [])
  | (name, Except.error _) :: rest =>
    let t := consolidate rest
    (t.1, (name, 0) :: t.2.1, t.2.2.1, name :: t.2.2.2)
  | (name, Except.ok rs) :: rest =>
    let t := consolidate rest
    (rs ++ t.1, (name, rs.length) :: t.2.1, name :: t.2.2.1, t.2.2.2)

/-- The catch-all empty response of lines 147-160. -/
def emptyResponse (queryText : String) : FederatedSearchResponse :=
  { query := queryText
    results := []
    stats := { total_results := 0, results_per_database := [], search_time_ms := 0,
               query_expansion_used := false, semantic_search_used := false,
               duplicates_removed := 0 }
    suggestions := []
    related_queries := [] }

/-- `FederatedSearchService.search` (lines 39-160): consolidate the
gathered provider outcomes, deduplicate, optionally recompute scores,
sort by `relevance_score` descending (line 106), and assemble the stats;
any uncaught exception in the body is converted to the empty response. -/
def federatedSearch (env : AggregatorEnv) : FederatedSearchResponse :=
  match env.mergeException with
  | some _ => emptyResponse env.queryText
  | none =>
    let c := consolidate env.providerOutcomes
    let dd := removeDuplicates c.1
    let scored := if env.enableSemantic ∧ dd.1 ≠ [] then dd.1.map env.scoreUpd else dd.1
    let sorted := pySortDesc (fun r => r.relevance_score) scored
    { query := env.queryText
      results := sorted
      stats := { total_results := sorted.length
                 results_per_database := c.2.1
                 search_time_ms := env.searchTimeMs
                 query_expansion_used := env.enableSemantic
                 semantic_search_used := env.enableSemantic
                 duplicates_removed := dd.2 }
      suggestions := if sorted.length < 5 then env.suggestions else []
      related_queries := if env.enableSemantic then env.relatedQueries else [] }

/-- The claim's sort order, following the spec's words: publication date
descending with missing dates treated as the minimal date.  Boolean check
of consecutive elements. -/
def dateGeB (a b : SearchResult) : Bool :=
  match a.publication_date, b.publication_date with
  | _, none => true
  | none, some _ => false
  | some x, some y => y.stamp ≤ x.stamp

/-- The claim's predicate: the list is sorted by publication date
descending, missing dates last. -/
def specSortedByDateDesc : List SearchResult → Bool
  | [] => true
  | [_] => true
  | a :: b :: rest => dateGeB a b && specSortedByDateDesc (b :: rest)

/-- High relevance score, older publication date. -/
def rHiScoreOld : SearchResult :=
  { mkRes "h" "alpha beta" (some "10.1/a") with
      relevance_score := mkRat 9 10, publication_date := some ⟨100, 2020⟩ }

/-- Low relevance score, newer publication date. -/
def rLoScoreNew : SearchResult :=
  { mkRes "l" "gamma delta" (some "10.1/b") with
      relevance_score := mkRat 1 10, publication_date := some ⟨200, 2021⟩ }

/-- Aggregator call where one provider returns two dated results whose
relevance order is the reverse of their date order. -/
def envDateVsScore : AggregatorEnv :=
  { queryText := "q", enableSemantic := false,
    providerOutcomes := [("arxiv", Except.ok [rHiScoreOld, rLoScoreNew])],
    scoreUpd := id, suggestions := [], relatedQueries := [],
    searchTimeMs := 0, mergeException := none }

/-- C5: the merged deduplicated list is NOT sorted by publication date
descending: line 106 sorts by `relevance_score`, so a higher-scored,
older result precedes a lower-scored, newer one. -/
theorem C5_counterexample :
    (federatedSearch envDateVsScore).results = [rHiScoreOld, rLoScoreNew] ∧
    specSortedByDateDesc (federatedSearch envDateVsScore).results = false ∧
    rHiScoreOld.publication_date = some ⟨100, 2020⟩ ∧
    rLoScoreNew.publication_date = some ⟨200, 2021⟩ := by
  decide

/-- C5 (amended): for every aggregator search call, the merged
deduplicated result list in the returned response is sorted by
`relevance_score` descending (Python's stable sort with `reverse=True`);
publication date plays no role in the final order. -/
theorem C5_sorted_by_relevance (env : AggregatorEnv) :
    (federatedSearch env).results.Pairwise
      (fun a b => b.relevance_score ≤ a.relevance_score) := by
  cases h : env.mergeException with
  | some e => simp [federatedSearch, h, emptyResponse]
  | none =>
    simp only [federatedSearch, h]
    exact pairwise_pySortDesc _ _

theorem consolidate_all_fail (outs : List (String × Except String (List SearchResult)))
    (h : ∀ p ∈ outs, ∃ e, p.2 = Except.error e) :
    consolidate outs
      = ([], outs.map (fun p => (p.1, 0)), [], outs.map (fun p => p.1)) := by
  induction outs with
  | nil => rfl
  | cons p rest ih =>
    obtain ⟨e, he⟩ := h p (List.mem_cons_self _ _)
    have ihr := ih (fun q hq => h q (List.mem_cons_of_mem _ hq))
    rcases p with ⟨name, out⟩
    simp only at he
    subst he
    simp [consolidate, ihr]

/-- All-providers-fail aggregator call. -/
def envAllFail : AggregatorEnv :=
  { queryText := "q", enableSemantic := false,
    providerOutcomes := [("arxiv", Except.error "timeout")],
    scoreUpd := id, suggestions := [], relatedQueries := [],
    searchTimeMs := 0, mergeException := none }

/-- The same call failing inside the merge logic. -/
def envMergeBoom : AggregatorEnv :=
  { envAllFail with mergeException := some "boom" }

/-- C8: when every provider fails, the response is well-formed and empty,
but its per-database counts are NOT empty: the consolidation loop records
a zero entry for each failed provider (line 90), so the stats carry
`{"arxiv": 0}`, contradicting the claim's "empty per-database counts". -/
theorem C8_counterexample :
    envAllFail.providerOutcomes = [("arxiv", Except.error "timeout")] ∧
    (federatedSearch envAllFail).results = [] ∧
    (federatedSearch envAllFail).stats.total_results = 0 ∧
    (federatedSearch envAllFail).stats.duplicates_removed = 0 ∧
    (federatedSearch envAllFail).stats.results_per_database = [("arxiv", 0)] ∧
    (federatedSearch envAllFail).stats.results_per_database ≠ [] := by
  refine ⟨rfl, ?_⟩
  decide

/-- C8 (amended): a fully failed aggregation still returns a well-formed
response rather than raising.  When an unexpected exception occurs in the
merge logic, the response is the fixed empty response (empty results,
total 0, empty per-database map, 0 duplicates).  When every provider
fails, the response has empty results, total 0, 0 duplicates removed, and
one zero count per queried provider in the per-database map. -/
theorem C8_failed_aggregation :
    (∀ env e, env.mergeException = some e →
      federatedSearch env = emptyResponse env.queryText) ∧
    (∀ env : AggregatorEnv, env.mergeException = none →
      (∀ p ∈ env.providerOutcomes, ∃ e, p.2 = Except.error e) →
      (federatedSearch env).results = [] ∧
      (federatedSearch env).stats.total_results = 0 ∧
      (federatedSearch env).stats.duplicates_removed = 0 ∧
      (federatedSearch env).stats.results_per_database
        = env.providerOutcomes.map (fun p => (p.1, 0))) := by
  constructor
  · intro env e h
    simp [federatedSearch, h]
  · intro env h hall
    have hc := consolidate_all_fail env.providerOutcomes hall
    simp [federatedSearch, h, hc, removeDuplicates, pySortDesc]

/-- C8 witness: both failure modes at concrete inputs. -/
theorem C8_failed_aggregation_witness :
    federatedSearch envMergeBoom = emptyResponse "q" ∧
    (federatedSearch envAllFail).results = [] ∧
    (federatedSearch envAllFail).stats.results_per_database = [("arxiv", 0)] := by
  refine ⟨C8_failed_aggregation.1 envMergeBoom "boom" rfl, ?_, ?_⟩
  · exact (C8_failed_aggregation.2 envAllFail rfl
      (by
        intro p hp
        simp only [envAllFail, List.mem_singleton] at hp
        subst hp
        exact ⟨"timeout", rfl⟩)).1
  · exact (C8_failed_aggregation.2 envAllFail rfl
      (by
        intro p hp
        simp only [envAllFail, List.mem_singleton] at hp
        subst hp
        exact ⟨"timeout", rfl⟩)).2.2.2

/-! ## Similarity search (embedding_client.py lines 220-290) -/

/-- `SentDocument` (schemas/search.py lines 233-246), as assembled by
`similarity_search` (lines 243-265); the year is the stored metadata year
string (see `YearStr`). -/
structure SentDocument where
  content : String
  score : ℚ
  title : String
  authors : String
  year : YearStr
  source : String
  url : String
  abstract : String
  access : AccessType
deriving DecidableEq, Repr

/-- The line loop of `_extract_abstract_from_content` (lines 277-288);
`found` is the `found_abstract` flag, and the empty-line `break` after the
abstract ends the loop. -/
def extractGo (found : Bool) : List String → List String
  | [] => []
  | line :: rest =>
    if pyStartsWith (pyStrip line) "Abstract:" then
      let t := pyStrip (pyReplace line "Abstract:" "")
      (if t ≠ "" then [t] else []) ++ extractGo true rest
    else if found = true ∧ pyStrip line ≠ "" then pyStrip line :: extractGo found rest
    else if found = true ∧ pyStrip line = "" then []
    else extractGo found rest

/-- `_extract_abstract_from_content` (lines 273-290). -/
def extractAbstractFromContent (content : String) : String :=
  let abstract_lines := extractGo false (pySplitNl content)
  if abstract_lines ≠ [] then String.intercalate " " abstract_lines
  else String.mk (content.data.take 200) ++ "..."

/-- Modelled from the spec: the vector store collaborator interface of §6
(`query(vector, k, metadata_filter?) -> [(id, score, metadata)]`), which
is the external Chroma `similarity_search_with_score` call of line 240 and
is not part of this repository.  It returns up to `k` stored chunks in
descending score order, restricted by an exact-match filter on the stored
`access` metadata when one is given; `score` models the embedding
similarity of a chunk to the query. -/
def vectorStoreQuery (score : String → Chunk → ℚ) (store : List Chunk)
    (queryText : String) (k : Nat) (filt : Option AccessType) : List (Chunk × ℚ) :=
  ((pySortDesc (fun p => p.2)
      ((store.filter (fun c =>
          match filt with
          | none => true
          | some a => c.metadata.access = a)).map
        (fun c => (c, score queryText c))))).take k

/-- Lines 244-265: one hit formatted as the flattened result dict. -/
def formatChunk (c : Chunk) (s : ℚ) : SentDocument :=
  { content := c.page_content
    score := s
    title := c.metadata.title
    authors := c.metadata.authors
    year := c.metadata.year
    source := c.metadata.source
    url := c.metadata.url
    abstract := extractAbstractFromContent c.page_content
    access := c.metadata.access }

/-- `similarity_search` (lines 220-271): the Chroma filter of line 239 is
the exact-match `{"access": access_filter}` dict whenever `access_filter`
is one of the two literals, i.e. whenever it is present. -/
def similaritySearch (score : String → Chunk → ℚ) (store : List Chunk)
    (queryText : String) (k : Nat) (access_filter : Option AccessType) : List SentDocument :=
  let chroma_filter := access_filter
  (vectorStoreQuery score store queryText k chroma_filter).map (fun p => formatChunk p.1 p.2)

/-- A stored open-access chunk. -/
def chunkOpen : Chunk :=
  { page_content := "Title: alpha\n\nAbstract: beta"
    metadata := { title := "alpha", authors := "A", year := YearStr.of 2020,
                  source := "arxiv", url := "", doc_hash := "alpha_beta",
                  access := AccessType.open } }

/-- A stored restricted chunk. -/
def chunkRestricted : Chunk :=
  { page_content := "Title: gamma\n\nAbstract: delta"
    metadata := { title := "gamma", authors := "B", year := YearStr.of 2021,
                  source := "arxiv", url := "", doc_hash := "gamma_delta",
                  access := AccessType.restricted } }

/-- A two-chunk store holding one chunk of each access type. -/
def mixedStore : List Chunk := [chunkOpen, chunkRestricted]

/-- C6: `similarity_search` with `access_filter="open"` returns only
documents whose stored access metadata is "open", each hit being a stored
chunk flattened with its similarity score and metadata; the result never
exceeds `k` hits; and with no filter a store holding both access types can
surface both. -/
theorem C6_similarity_search :
    (∀ score store q k d, d ∈ similaritySearch score store q k (some AccessType.open) →
      d.access = AccessType.open ∧
      ∃ c, c ∈ store ∧ c.metadata.access = AccessType.open ∧ d = formatChunk c (score q c)) ∧
    (∀ score store q k filt, (similaritySearch score store q k filt).length ≤ k) ∧
    (∃ score q, AccessType.open ∈
        (similaritySearch score mixedStore q 2 none).map SentDocument.access ∧
      AccessType.restricted ∈
        (similaritySearch score mixedStore q 2 none).map SentDocument.access) := by
  refine ⟨?_, ?_, ?_⟩
  · intro score store q k d hd
    simp only [similaritySearch, List.mem_map] at hd
    obtain ⟨p, hp, rfl⟩ := hd
    have hp2 : p ∈ pySortDesc (fun p => p.2)
        ((store.filter (fun c =>
            match (some AccessType.open : Option AccessType) with
            | none => true
            | some a => c.metadata.access = a)).map
          (fun c => (c, score q c))) := List.take_subset _ _ hp
    have hp3 := mem_pySortDesc (fun p => p.2) p _ hp2
    simp only [List.mem_map] at hp3
    obtain ⟨c, hc, rfl⟩ := hp3
    have hcf := List.mem_filter.mp hc
    have hacc : c.metadata.access = AccessType.open := by
      have := hcf.2
      simpa using this
    exact ⟨hacc, c, hcf.1, hacc, rfl⟩
  · intro score store q k filt
    simp only [similaritySearch, List.length_map, vectorStoreQuery]
    exact le_trans (List.length_take_le _ _) (le_refl _)
  · refine ⟨fun _ _ => 0, "q", ?_, ?_⟩ <;> decide

/-- C6 witness: the only hit of an open-filtered search over the mixed
store is the stored open chunk, flattened with its score. -/
theorem C6_similarity_search_witness :
    (formatChunk chunkOpen 0).access = AccessType.open ∧
    ∃ c, c ∈ mixedStore ∧ c.metadata.access = AccessType.open ∧
      formatChunk chunkOpen 0 = formatChunk c ((fun _ _ => (0 : ℚ)) "q" c) :=
  C6_similarity_search.1 (fun _ _ => 0) mixedStore "q" 2 (formatChunk chunkOpen 0)
    (by decide)

/-! ## Cross-query title deduplication
(query.py lines 119-130 and chat_completions.py lines 386-398; the two
loops are identical) -/

/-- The dedup loop: `seen` is the `seen_titles` set; a document is kept
only when its lower-cased stripped title is non-empty and unseen. -/
def dedupByTitleGo (seen : List String) : List SearchResult → List SearchResult
  | [] => []
  | d :: rest =>
    if pyStrip (lowerString d.title) ≠ "" ∧ pyStrip (lowerString d.title) ∉ seen then
      d :: dedupByTitleGo (pyStrip (lowerString d.title) :: seen) rest
    else dedupByTitleGo seen rest

/-- The orchestrators' title-based cross-query deduplication. -/
def dedupByTitle (docs : List SearchResult) : List SearchResult :=
  dedupByTitleGo [] docs

/-! ## Streaming endpoints
(chat_completions.py lines 103-659 and query.py lines 199-347)

Each generator is modelled as a function from the outcomes of its external
calls to the list of emitted event frames plus a flag recording whether an
uncaught exception escaped to the generator's outer `except` handler.
External streaming calls are modelled as the chunks they produced before
optionally raising. -/

/-- One generated database query (`{"query": ..., "focus": ...}`). -/
structure QueryInfo where
  query : String
  focus : String
deriving DecidableEq, Repr

/-- An external streaming call: the chunks it yielded, then whether it
raised instead of finishing. -/
structure StreamedText where
  chunks : List String
  raised : Bool
deriving DecidableEq, Repr

/-- Event frames of the OpenAI-compatible stream: the initial assistant
chunk, `<event>` chunks (only with `stream_events`), content chunks, the
fallback message chunk, the `finish_reason="stop"` chunk, the error chunk
of the `except` handler, and the `data: [DONE]` terminal marker. -/
inductive CEvent where
  | initial | event | chunk | fallback | finalStop | errorChunk | done
deriving DecidableEq, Repr

/-- `settings.COHERE_TOP_N` (core/config.py line 53). -/
def COHERE_TOP_N : Nat := 10

/-- The `<event>` frames emitted only when `stream_events` is set. -/
def seGate (se : Bool) : List CEvent :=
  if se then [CEvent.event] else []

/-- Outcomes of the external calls made by one chat-completions request.
`searchOutcome i` is the i-th `search_service.search` call (its exception
is caught inside the loop); the other `Except`/`StreamedText` fields model
calls whose exception propagates to the outer handler. -/
structure ChatEnv where
  is_first_message : Bool
  stream_events : Bool
  clarification : StreamedText
  genQueries : Except String (List QueryInfo)
  searchOutcome : Nat → Except String (List SearchResult)
  embedOutcome : Except String Unit
  retrieved : List SentDocument
  rerankAvailable : Bool
  rerankCall : Except Unit (List (Nat × ℚ))
  llmStream : StreamedText

/-- The per-query search loop of chat_completions.py lines 318-380: a
progress `<event>` per query, plus an error `<event>` when that query's
search raised (both only under `stream_events`); successful results are
accumulated in order. -/
def chatSearchLoop (se : Bool) (outcome : Nat → Except String (List SearchResult)) :
    List QueryInfo → Nat → List CEvent × List SearchResult
  | [], _ => ([], [])
  | _ :: rest, i =>
    match outcome i with
    | Except.ok rs =>
      let t := chatSearchLoop se outcome rest (i + 1)
      (seGate se ++ t.1, rs ++ t.2)
    | Except.error _ =>
      let t := chatSearchLoop se outcome rest (i + 1)
      (seGate se ++ seGate se ++ t.1, t.2)

/-- The body of `generate_openai_stream` (chat_completions.py lines
123-628): the emitted frames and whether an uncaught exception escaped to
the handler on line 630. -/
def chatBody (env : ChatEnv) : List CEvent × Bool :=
  if env.is_first_message then
    if env.clarification.raised then
      ([CEvent.initial] ++ seGate env.stream_events
        ++ env.clarification.chunks.map (fun _ => CEvent.chunk), true)
    else
      ([CEvent.initial] ++ seGate env.stream_events
        ++ env.clarification.chunks.map (fun _ => CEvent.chunk)
        ++ [CEvent.finalStop, CEvent.done], false)
  else
    match env.genQueries with
    | Except.error _ => ([CEvent.initial] ++ seGate env.stream_events, true)
    | Except.ok qs =>
      let t := chatSearchLoop env.stream_events env.searchOutcome qs 0
      let pre := [CEvent.initial] ++ seGate env.stream_events ++ seGate env.stream_events
        ++ seGate env.stream_events ++ t.1 ++ seGate env.stream_events
        ++ seGate env.stream_events
      let cont : Unit → List CEvent × Bool := fun _ =>
        let top := env.retrieved
        let rerankEvs :=
          if env.rerankAvailable ∧ top ≠ [] then seGate env.stream_events else []
        let topAfter :=
          if env.rerankAvailable ∧ top ≠ [] then
            rerankDocuments true top env.rerankCall (fun d s => { d with score := s })
          else top
        let pre2 := pre ++ seGate env.stream_events ++ rerankEvs
          ++ seGate env.stream_events ++ seGate env.stream_events
        if topAfter = [] then
          (pre2 ++ [CEvent.fallback, CEvent.finalStop, CEvent.done], false)
        else
          if env.llmStream.raised then
            (pre2 ++ env.llmStream.chunks.map (fun _ => CEvent.chunk), true)
          else
            (pre2 ++ env.llmStream.chunks.map (fun _ => CEvent.chunk)
              ++ [CEvent.finalStop, CEvent.done], false)
      if (dedupByTitle t.2).isEmpty then cont ()
      else
        match env.embedOutcome with
        | Except.error _ => (pre, true)
        | Except.ok _ => cont ()

/-- `generate_openai_stream` (lines 123-649): the handler on lines
630-649 appends one error chunk and the `[DONE]` marker after an uncaught
exception. -/
def generateOpenAIStream (env : ChatEnv) : List CEvent :=
  if (chatBody env).2 then (chatBody env).1 ++ [CEvent.errorChunk, CEvent.done]
  else (chatBody env).1

/-- Event frames of the `/query/stream` SSE protocol (`'type'` values of
the emitted frames; per-search failures and the outer handler both emit
`'type': 'error'` frames). -/
inductive QEvent where
  | status | queries | documents | chunk | complete | error
deriving DecidableEq, Repr

/-- Outcomes of the external calls made by one `/query/stream` request.
`llm` is `generate_rag_response`, whose response is later sliced into
100-character `response_chunk` frames. -/
structure QueryEnv where
  genQueries : Except String (List QueryInfo)
  searchOutcome : Nat → Except String (List SearchResult)
  embedOutcome : Except String Unit
  retrieved : List SentDocument
  rerankAvailable : Bool
  rerankCall : Except Unit (List (Nat × ℚ))
  llm : Except String String

/-- The per-query search loop of query.py lines 236-254: a status frame
per query and an error frame when that query's search raised; successful
results accumulate in order. -/
def querySearchLoop (outcome : Nat → Except String (List SearchResult)) :
    List QueryInfo → Nat → List QEvent × List SearchResult
  | [], _ => ([], [])
  | _ :: rest, i =>
    match outcome i with
    | Except.ok rs =>
      let t := querySearchLoop outcome rest (i + 1)
      ([QEvent.status] ++ t.1, rs ++ t.2)
    | Except.error _ =>
      let t := querySearchLoop outcome rest (i + 1)
      ([QEvent.status, QEvent.error] ++ t.1, t.2)

/-- The body of `generate_stream` (query.py lines 207-333): the emitted
frames and whether an uncaught exception escaped to the handler on line
335.  A non-empty LLM response of length n is sliced into
`(n + 99) / 100` `response_chunk` frames (lines 319-323); an empty
document set yields the single fallback chunk (lines 325-329). -/
def queryBody (env : QueryEnv) : List QEvent × Bool :=
  match env.genQueries with
  | Except.error _ => ([QEvent.status], true)
  | Except.ok qs =>
    let t := querySearchLoop env.searchOutcome qs 0
    let pre := [QEvent.status, QEvent.queries, QEvent.status] ++ t.1
      ++ [QEvent.status, QEvent.status]
    let cont : Unit → List QEvent × Bool := fun _ =>
      let top := env.retrieved
      let rerankEvs := if env.rerankAvailable ∧ top ≠ [] then [QEvent.status] else []
      let topAfter :=
        if env.rerankAvailable ∧ top ≠ [] then
          rerankDocuments true top env.rerankCall (fun d s => { d with score := s })
        else top
      let pre2 := pre ++ [QEvent.status] ++ rerankEvs ++ [QEvent.documents, QEvent.status]
      if topAfter = [] then (pre2 ++ [QEvent.chunk, QEvent.complete], false)
      else
        match env.llm with
        | Except.error _ => (pre2, true)
        | Except.ok s =>
          (pre2 ++ List.replicate ((s.length + 99) / 100) QEvent.chunk
            ++ [QEvent.complete], false)
    if (dedupByTitle t.2).isEmpty then cont ()
    else
      match env.embedOutcome with
      | Except.error _ => (pre, true)
      | Except.ok _ => cont ()

/-- `generate_stream` (query.py lines 207-337): the handler on lines
335-337 appends one error frame after an uncaught exception — and nothing
else: no `complete` terminal frame follows it. -/
def generateStream (env : QueryEnv) : List QEvent :=
  if (queryBody env).2 then (queryBody env).1 ++ [QEvent.error] else (queryBody env).1

/-! ## Stream termination lemmas -/

theorem getLast?_append_right {α : Type} {x : α} :
    ∀ (a b : List α), b.getLast? = some x → (a ++ b).getLast? = some x := by
  intro a
  induction a with
  | nil =>
    intro b h
    exact h
  | cons y ys ih =>
    intro b h
    have hb : b ≠ [] := by
      intro hb
      rw [hb] at h
      simp at h
    rw [List.cons_append]
    rcases h2 : ys ++ b with _ | ⟨z, zs⟩
    · exact absurd (List.append_eq_nil.mp h2).2 hb
    · rw [List.getLast?_cons_cons]
      rw [← h2]
      exact ih b h

theorem getLast?_append_two {α : Type} (l : List α) (a b : α) :
    (l ++ [a, b]).getLast? = some b :=
  getLast?_append_right l [a, b] rfl

theorem chatSearchLoop_events (se : Bool) (f : Nat → Except String (List SearchResult)) :
    ∀ qs i e, e ∈ (chatSearchLoop se f qs i).1 → e = CEvent.event := by
  intro qs
  induction qs with
  | nil =>
    intro i e h
    simp [chatSearchLoop] at h
  | cons q rest ih =>
    intro i e h
    rcases hf : f i with msg | rs
    · simp only [chatSearchLoop, hf, List.mem_append] at h
      rcases h with (h | h) | h
      · rcases Bool.eq_false_or_eq_true se with hse | hse <;> simp [seGate, hse] at h
        exact h
      · rcases Bool.eq_false_or_eq_true se with hse | hse <;> simp [seGate, hse] at h
        exact h
      · exact ih (i + 1) e h
    · simp only [chatSearchLoop, hf, List.mem_append] at h
      rcases h with h | h
      · rcases Bool.eq_false_or_eq_true se with hse | hse <;> simp [seGate, hse] at h
        exact h
      · exact ih (i + 1) e h

theorem errorChunk_not_mem_seGate (se : Bool) : CEvent.errorChunk ∉ seGate se := by
  cases se <;> simp [seGate]

theorem errorChunk_not_mem_chatLoop (se : Bool) (f : Nat → Except String (List SearchResult))
    (qs : List QueryInfo) (i : Nat) : CEvent.errorChunk ∉ (chatSearchLoop se f qs i).1 := by
  intro h
  exact CEvent.noConfusion (chatSearchLoop_events se f qs i _ h)

theorem not_mem_ite_fst {α : Type} {p : Prop} [Decidable p] {x y : List α × Bool} {a : α}
    (hx : a ∉ x.1) (hy : a ∉ y.1) : a ∉ (if p then x else y).1 := by
  by_cases h : p <;> simp [h, hx, hy]

theorem chatBody_no_errorChunk (env : ChatEnv) :
    CEvent.errorChunk ∉ (chatBody env).1 := by
  unfold chatBody
  repeat' split
  all_goals
    (repeat' apply not_mem_ite_fst) <;>
      simp [errorChunk_not_mem_seGate, errorChunk_not_mem_chatLoop]

/-- A chat stream pair whose normal completion ends in the `[DONE]`
marker. -/
def EndsDone (z : List CEvent × Bool) : Prop :=
  z.2 = false → z.1.getLast? = some CEvent.done

theorem endsDone_ite {p : Prop} [Decidable p] {x y : List CEvent × Bool}
    (hx : EndsDone x) (hy : EndsDone y) : EndsDone (if p then x else y) := by
  by_cases h : p
  · simpa [h] using hx
  · simpa [h] using hy

theorem chatBody_done_when_ok (env : ChatEnv) : EndsDone (chatBody env) := by
  unfold chatBody
  repeat' split
  all_goals
    (repeat' apply endsDone_ite) <;>
      (intro h
       first
         | (simp at h
            done)
         | (repeat
             first
             | rfl
             | decide
             | apply getLast?_append_right))

theorem querySearchLoop_events (f : Nat → Except String (List SearchResult)) :
    ∀ qs i e, e ∈ (querySearchLoop f qs i).1 → e = QEvent.status ∨ e = QEvent.error := by
  intro qs
  induction qs with
  | nil =>
    intro i e h
    simp [querySearchLoop] at h
  | cons q rest ih =>
    intro i e h
    rcases hf : f i with msg | rs
    · simp only [querySearchLoop, hf, List.mem_append, List.mem_cons,
        List.mem_singleton, List.not_mem_nil] at h
      rcases h with (h | h | h) | h
      · exact Or.inl h
      · exact Or.inr h
      · exact absurd h (by simp)
      · exact ih (i + 1) e h
    · simp only [querySearchLoop, hf, List.mem_append, List.mem_cons,
        List.mem_singleton, List.not_mem_nil] at h
      rcases h with (h | h) | h
      · exact Or.inl h
      · exact absurd h (by simp)
      · exact ih (i + 1) e h

theorem complete_not_mem_queryLoop (f : Nat → Except String (List SearchResult))
    (qs : List QueryInfo) (i : Nat) : QEvent.complete ∉ (querySearchLoop f qs i).1 := by
  intro h
  rcases querySearchLoop_events f qs i _ h with h | h <;> exact QEvent.noConfusion h

/-- A query stream pair that carries no `complete` frame when it raised. -/
def QNoComplete (z : List QEvent × Bool) : Prop :=
  z.2 = true → QEvent.complete ∉ z.1

theorem qNoComplete_ite {p : Prop} [Decidable p] {x y : List QEvent × Bool}
    (hx : QNoComplete x) (hy : QNoComplete y) : QNoComplete (if p then x else y) := by
  by_cases h : p
  · simpa [h] using hx
  · simpa [h] using hy

theorem queryBody_no_complete_when_raised (env : QueryEnv) : QNoComplete (queryBody env) := by
  unfold queryBody
  repeat' split
  all_goals
    (repeat' apply qNoComplete_ite) <;>
      (intro h
       first
         | (simp at h
            done)
         | simp [complete_not_mem_queryLoop])

/-- A `/query/stream` request whose query-generation call raises. -/
def envQueryGenFail : QueryEnv :=
  { genQueries := Except.error "boom", searchOutcome := fun _ => Except.ok [],
    embedOutcome := Except.ok (), retrieved := [], rerankAvailable := false,
    rerankCall := Except.ok [], llm := Except.ok "" }

/-- A chat-completions request whose query-generation call raises. -/
def envChatGenFail : ChatEnv :=
  { is_first_message := false, stream_events := false,
    clarification := { chunks := [], raised := false },
    genQueries := Except.error "boom",
    searchOutcome := fun _ => Except.ok [], embedOutcome := Except.ok (),
    retrieved := [], rerankAvailable := false, rerankCall := Except.ok [],
    llmStream := { chunks := [], raised := false } }

/-- C7: the claim fails for the `/query/stream` endpoint: when an uncaught
exception occurs (here, query generation raising after the first status
frame), the handler of query.py lines 335-337 emits a single error frame
and the stream then ends — no terminal `complete` marker follows, so the
stream does end without its terminal marker. -/
theorem C7_counterexample :
    generateStream envQueryGenFail = [QEvent.status, QEvent.error] ∧
    QEvent.complete ∉ generateStream envQueryGenFail ∧
    (generateStream envQueryGenFail).getLast? ≠ some QEvent.complete := by
  decide

/-- C7 (amended): in the OpenAI-compatible streaming endpoint the property
holds: every stream ends with the `[DONE]` terminal marker, and after an
uncaught exception the remainder of the stream is exactly one error chunk
followed by `[DONE]` (no error chunk occurs earlier).  In the
`/query/stream` endpoint an uncaught exception instead makes the
remainder a single error frame with NO terminal `complete` marker: the
stream contains no `complete` frame at all in that case. -/
theorem C7_stream_termination :
    (∀ env : ChatEnv, (generateOpenAIStream env).getLast? = some CEvent.done) ∧
    (∀ env : ChatEnv, (chatBody env).2 = true →
      generateOpenAIStream env = (chatBody env).1 ++ [CEvent.errorChunk, CEvent.done] ∧
      CEvent.errorChunk ∉ (chatBody env).1) ∧
    (∀ env : QueryEnv, (queryBody env).2 = true →
      generateStream env = (queryBody env).1 ++ [QEvent.error] ∧
      QEvent.complete ∉ generateStream env) := by
  refine ⟨?_, ?_, ?_⟩
  · intro env
    by_cases hr : (chatBody env).2 = true
    · simp only [generateOpenAIStream, hr, if_true]
      exact getLast?_append_two _ _ _
    · rw [Bool.not_eq_true] at hr
      simp only [generateOpenAIStream, hr, Bool.false_eq_true, if_false]
      exact chatBody_done_when_ok env hr
  · intro env h
    exact ⟨by simp [generateOpenAIStream, h], chatBody_no_errorChunk env⟩
  · intro env h
    have hs : generateStream env = (queryBody env).1 ++ [QEvent.error] := by
      simp [generateStream, h]
    refine ⟨hs, ?_⟩
    rw [hs]
    intro hmem
    rcases List.mem_append.mp hmem with hm | hm
    · exact (queryBody_no_complete_when_raised env h) hm
    · simp at hm

/-- C7 witness: both endpoints at concrete raising requests. -/
theorem C7_stream_termination_witness :
    (generateOpenAIStream envChatGenFail).getLast? = some CEvent.done ∧
    generateOpenAIStream envChatGenFail
      = (chatBody envChatGenFail).1 ++ [CEvent.errorChunk, CEvent.done] ∧
    generateStream envQueryGenFail = (queryBody envQueryGenFail).1 ++ [QEvent.error] := by
  refine ⟨C7_stream_termination.1 envChatGenFail, ?_, ?_⟩
  · exact (C7_stream_termination.2.1 envChatGenFail (by decide)).1
  · exact (C7_stream_termination.2.2 envQueryGenFail (by decide)).1

theorem dedupByTitleGo_blank_not_mem (d : SearchResult)
    (hb : pyStrip (lowerString d.title) = "") :
    ∀ docs seen, d ∉ dedupByTitleGo seen docs := by
  intro docs
  induction docs with
  | nil =>
    intro seen
    simp [dedupByTitleGo]
  | cons e rest ih =>
    intro seen
    by_cases hc : pyStrip (lowerString e.title) ≠ "" ∧ pyStrip (lowerString e.title) ∉ seen
    · simp only [dedupByTitleGo, if_pos hc]
      intro hmem
      rcases List.mem_cons.mp hmem with rfl | hmem
      · exact hc.1 hb
      · exact ih _ hmem
    · simp only [dedupByTitleGo, if_neg hc]
      exact ih seen

/-- C10: in the orchestrators' title-based cross-query deduplication, a
document whose title is empty or whitespace-only (after lower-casing and
stripping) is never placed in the unique-document list, for any combined
document list — so it is never embedded, stored, or counted in the
reported unique total, which are all computed from that list. -/
theorem C10_blank_title_excluded (docs : List SearchResult) (d : SearchResult)
    (h : pyStrip (lowerString d.title) = "") :
    d ∉ dedupByTitle docs :=
  dedupByTitleGo_blank_not_mem d h docs []

/-- A result whose title is whitespace only. -/
def rBlankTitle : SearchResult := mkRes "b" "   " none

/-- C10 witness: the whitespace-titled result is excluded from a concrete
dedup run. -/
theorem C10_blank_title_excluded_witness :
    rBlankTitle ∉ dedupByTitle [rBlankTitle, resCat] :=
  C10_blank_title_excluded [rBlankTitle, resCat] rBlankTitle (by decide)
